import Mathlib

/-!
Shallow embedding of `src/kyco/utils.py`: the `ListenTo` decorator
(lines 42-96) and the `KycoNApp` base class (lines 99-181), covering
listener-registry construction, buffer-binding validation, the reserved
shutdown handler, and the abstract-method instantiation check imposed by
`ABCMeta`.
-/

set_option autoImplicit false

namespace Kyco

/-- Outcome of calling a Python function: a normal return value, or a raised
exception carrying its message. -/
inductive PyResult (α : Type) where
  | ok : α → PyResult α
  | exn : String → PyResult α
  deriving DecidableEq

/-- A Python callable of the shape App handlers have: it receives the
positional argument list and either returns a value or raises. -/
def PyFun (α : Type) : Type := List α → PyResult α

/-- The `ListenTo` decorator object: its single piece of state is the
`events` list (utils.py line 85-86). -/
structure ListenTo where
  events : List String
  deriving DecidableEq

/-- `ListenTo.__init__(self, event, *events)` (utils.py lines 75-86):
`self.events = [event]` then `self.events.extend(events)`. At least one
event name is required by the signature. -/
def ListenTo.init (event : String) (events : List String) : ListenTo :=
  { events := [event] ++ events }

/-- The thread spawned by one invocation of `wrapped_handler` (utils.py
line 93): `Thread(target=handler, args=args)`. -/
structure SpawnedThread (α : Type) where
  target : PyFun α
  args : List α

/-- Running a spawned thread applies its target to the stored args; any
exception the target raises stays inside this result, which only the
thread itself observes. -/
def SpawnedThread.run {α : Type} (t : SpawnedThread α) : PyResult α :=
  t.target t.args

/-- The function returned by `ListenTo.__call__`: `wrapped_handler`
closed over the original handler, with the `events` attribute set on it
(utils.py lines 88-96). -/
structure WrappedHandler (α : Type) where
  handler : PyFun α
  events : List String

/-- `ListenTo.__call__(self, handler)` (utils.py lines 88-96): returns
`wrapped_handler` with `wrapped_handler.events = self.events`. -/
def ListenTo.call {α : Type} (self : ListenTo) (handler : PyFun α) :
    WrappedHandler α :=
  { handler := handler, events := self.events }

/-- Invoking `wrapped_handler(*args)` (utils.py lines 91-94): starts a new
thread running the original handler on the caller's args and returns `None`
to the caller. The first component is everything the caller observes (a
unit return, never an exception); the second is the spawned thread. -/
def WrappedHandler.invoke {α : Type} (w : WrappedHandler α) (args : List α) :
    PyResult Unit × SpawnedThread α :=
  (PyResult.ok (), { target := w.handler, args := args })

/-- One member (attribute) of an App instance as `dir(self)` / `getattr`
see it during `KycoNApp.__init__`: its name, whether it is callable, and
its `events` attribute when a `ListenTo` decoration set one (`none` means
`hasattr(·, 'events')` is false). -/
structure Member where
  name : String
  callable : Bool
  events : Option (List String)
  deriving DecidableEq

/-- The test `method_name[0] != '_'` from utils.py line 114, negated:
whether the member's name starts with an underscore. (Names produced by
`dir` are never empty, so the empty case is unreachable.) -/
def Member.isPrivate (m : Member) : Bool :=
  match m.name.data with
  | [] => false
  | c :: _ => c == '_'

/-- The `self._listeners` dict: insertion-ordered mapping from event name
to the list of handler methods appended for it. -/
abbrev Registry := List (String × List Member)

/-- Python dict lookup `self._listeners[event_name]` (first matching key). -/
def regLookup : Registry → String → Option (List Member)
  | [], _ => none
  | (k, hs) :: rest, ev => if k = ev then some hs else regLookup rest ev

/-- Body of the inner registry loop (utils.py lines 121-123):
`if event_name not in self._listeners: self._listeners[event_name] = []`
followed by `self._listeners[event_name].append(method)`. A fresh key is
inserted at the end of the dict. -/
def addHandler : Registry → String → Member → Registry
  | [], ev, m => [(ev, [m])]
  | (k, hs) :: rest, ev, m =>
      if k = ev then (k, hs ++ [m]) :: rest
      else (k, hs) :: addHandler rest ev m

/-- The inner loop `for event_name in method.events` (utils.py line 120). -/
def addEvents : Registry → Member → List String → Registry
  | reg, _, [] => reg
  | reg, m, ev :: rest => addEvents (addHandler reg ev m) m rest

/-- The outer loop `for method in handler_methods` (utils.py line 119).
Every scanned method has the `events` attribute, so `getD []` is never
exercised on the scanned members. -/
def addMethods : Registry → List Member → Registry
  | reg, [] => reg
  | reg, m :: rest => addMethods (addEvents reg m (m.events.getD [])) rest

/-- The `handler_methods` selection (utils.py lines 113-116): members of
`dir(self)` whose name does not start with `_`, that are callable, and
that carry an `events` attribute. -/
def handlerMethods (members : List Member) : List Member :=
  members.filter fun m => !m.isPrivate && m.callable && m.events.isSome

/-- The `self._listeners` dict as built by `KycoNApp.__init__`
(utils.py lines 111-123), starting from the empty dict. -/
def buildListeners (members : List Member) : Registry :=
  addMethods [] (handlerMethods members)

/-- Description of a `KycoNApp` subclass: the members the App author adds
on top of the base class, and which of the three abstract methods
(`setup`, `execute`, `shutdown`) the subclass overrides. -/
structure AppClass where
  userMembers : List Member
  hasSetup : Bool
  hasExecute : Bool
  hasShutdown : Bool

/-- The members `KycoNApp` itself defines in utils.py: `run` (line 139),
`_shutdown_handler` decorated `@ListenTo('KycoShutdownEvent')` (lines
149-151, so it carries `events = ['KycoShutdownEvent']`), and the abstract
`setup` / `execute` / `shutdown` (lines 153-180). Members inherited from
`Thread` and `object` carry no `events` attribute and so can never enter
the registry; they are not enumerated individually. -/
def frameworkMembers : List Member :=
  [ { name := "_shutdown_handler", callable := true,
      events := some ["KycoShutdownEvent"] },
    { name := "run", callable := true, events := none },
    { name := "setup", callable := true, events := none },
    { name := "execute", callable := true, events := none },
    { name := "shutdown", callable := true, events := none } ]

/-- The members visible on an instance of `cls` during `__init__`:
`getattr(self, n)` for each name `n` in `dir(self)`, where a user-defined
member shadows a framework member of the same name. (`dir` sorts names
alphabetically; none of the verified properties depends on enumeration
order.) -/
def instanceMembers (cls : AppClass) : List Member :=
  cls.userMembers ++
    frameworkMembers.filter
      (fun f => !(cls.userMembers.any (fun u => u.name == f.name)))

/-- The errors App construction can raise: the `TypeError` `ABCMeta`
raises for an abstract class, and `KycoNAppMissingInitArgument` from
`kyco.core.exceptions` carrying the missing keyword name. -/
inductive PyError where
  | typeErrorAbstract : PyError
  | kycoNAppMissingInitArgument : String → PyError
  deriving DecidableEq

/-- The App object (`self`) as `KycoNApp.__init__` mutates it: the
`_listeners` dict plus the three buffer-sink attributes, each `none`
until its assignment statement has run. -/
structure AppSelf (α : Type) where
  listenersAttr : Registry
  add_to_msg_in_buffer : Option α
  add_to_msg_out_buffer : Option α
  add_to_app_buffer : Option α
  deriving DecidableEq

/-- `'k' in kwargs` / `kwargs['k']` on the keyword-argument dict. -/
def kwLookup {α : Type} : List (String × α) → String → Option α
  | [], _ => none
  | (k, v) :: rest, key => if k = key then some v else kwLookup rest key

/-- `KycoNApp.__init__(self, **kwargs)` (utils.py lines 102-137): build
`self._listeners` from the instance members, then check the three buffer
kwargs in source order, raising `KycoNAppMissingInitArgument` at the first
absent key and binding each present value to its attribute. The result is
the `self` object exactly as mutated when `__init__` returns or raises,
paired with the raised error if any. -/
def KycoNApp.init {α : Type} (cls : AppClass) (kwargs : List (String × α)) :
    AppSelf α × Option PyError :=
  let st : AppSelf α :=
    { listenersAttr := buildListeners (instanceMembers cls),
      add_to_msg_in_buffer := none,
      add_to_msg_out_buffer := none,
      add_to_app_buffer := none }
  match kwLookup kwargs "add_to_msg_in_buffer" with
  | none => (st, some (PyError.kycoNAppMissingInitArgument "add_to_msg_in_buffer"))
  | some fin =>
    let st := { st with add_to_msg_in_buffer := some fin }
    match kwLookup kwargs "add_to_msg_out_buffer" with
    | none => (st, some (PyError.kycoNAppMissingInitArgument "add_to_msg_out_buffer"))
    | some fout =>
      let st := { st with add_to_msg_out_buffer := some fout }
      match kwLookup kwargs "add_to_app_buffer" with
      | none => (st, some (PyError.kycoNAppMissingInitArgument "add_to_app_buffer"))
      | some fapp =>
        ({ st with add_to_app_buffer := some fapp }, none)

/-- Instantiating `cls(**kwargs)`: `ABCMeta` (utils.py line 99 together
with the `@abstractmethod` markers on lines 153-169) refuses instantiation
with a `TypeError` when any of `setup`, `execute`, `shutdown` is not
overridden, before `__init__` runs; otherwise `__init__` executes. -/
def instantiate {α : Type} (cls : AppClass) (kwargs : List (String × α)) :
    Except PyError (AppSelf α × Option PyError) :=
  if cls.hasSetup && cls.hasExecute && cls.hasShutdown
  then Except.ok (KycoNApp.init cls kwargs)
  else Except.error PyError.typeErrorAbstract

/-! ### Registry lemmas -/

/-- Effect of one `addHandler` step on lookups: the targeted key gains the
method at the end of its list (an absent key starts from the empty list);
every other key is untouched. Holds for arbitrary association lists. -/
theorem regLookup_addHandler (reg : Registry) (ev : String) (m : Member)
    (k : String) :
    regLookup (addHandler reg ev m) k =
      if k = ev then some (((regLookup reg ev).getD []) ++ [m])
      else regLookup reg k := by
  induction reg with
  | nil =>
    by_cases hk : k = ev
    · subst hk; simp [addHandler, regLookup]
    · simp [addHandler, regLookup, hk, Ne.symm hk]
  | cons p rest ih =>
    obtain ⟨a, hs⟩ := p
    by_cases ha : a = ev
    · subst ha
      by_cases hk : k = a
      · subst hk; simp [addHandler, regLookup]
      · simp [addHandler, regLookup, hk, Ne.symm hk]
    · by_cases hk : k = a
      · subst hk
        simp [addHandler, regLookup, ha, Ne.symm ha]
      · simp [addHandler, regLookup, ha, hk, Ne.symm hk, ih]

/-- A per-entry registry invariant: `P k m` holds of every method `m`
stored in the list of some key `k`. -/
def RegInv (P : String → Member → Prop) (reg : Registry) : Prop :=
  ∀ k hs, regLookup reg k = some hs → ∀ m ∈ hs, P k m

theorem regInv_empty (P : String → Member → Prop) : RegInv P [] := by
  intro k hs h
  simp [regLookup] at h

theorem regInv_addHandler {P : String → Member → Prop} {reg : Registry}
    (h : RegInv P reg) {ev : String} {m : Member} (hm : P ev m) :
    RegInv P (addHandler reg ev m) := by
  intro k hs hlook m' hm'
  rw [regLookup_addHandler] at hlook
  by_cases hk : k = ev
  · subst hk
    rw [if_pos rfl] at hlook
    obtain rfl : ((regLookup reg k).getD []) ++ [m] = hs := by
      exact Option.some.inj hlook
    rcases List.mem_append.mp hm' with hold | hnew
    · rcases hfind : regLookup reg k with _ | hs0
      · rw [hfind] at hold; simp at hold
      · rw [hfind] at hold
        exact h k hs0 hfind m' hold
    · obtain rfl : m' = m := by simpa using hnew
      exact hm
  · rw [if_neg hk] at hlook
    exact h k hs hlook m' hm'

theorem regInv_addEvents {P : String → Member → Prop} (es : List String) :
    ∀ (reg : Registry) (m : Member), RegInv P reg →
      (∀ ev ∈ es, P ev m) → RegInv P (addEvents reg m es) := by
  induction es with
  | nil => intro reg m h _; exact h
  | cons ev rest ih =>
    intro reg m h hall
    exact ih (addHandler reg ev m) m
      (regInv_addHandler h (hall ev (List.mem_cons_self ev rest)))
      (fun e he => hall e (List.mem_cons_of_mem ev he))

theorem regInv_addMethods {P : String → Member → Prop} (ms : List Member) :
    ∀ (reg : Registry), RegInv P reg →
      (∀ m ∈ ms, ∀ ev ∈ m.events.getD [], P ev m) →
      RegInv P (addMethods reg ms) := by
  induction ms with
  | nil => intro reg h _; exact h
  | cons m rest ih =>
    intro reg h hall
    exact ih (addEvents reg m (m.events.getD []))
      (regInv_addEvents _ reg m h
        (fun ev hev => hall m (List.mem_cons_self m rest) ev hev))
      (fun m' hm' ev hev => hall m' (List.mem_cons_of_mem m hm') ev hev)

/-- Every per-entry property holding of all scanned (method, declared
event) pairs holds of every entry of the built registry. -/
theorem regInv_buildListeners {P : String → Member → Prop}
    (members : List Member)
    (hall : ∀ m ∈ handlerMethods members, ∀ ev ∈ m.events.getD [], P ev m) :
    RegInv P (buildListeners members) :=
  regInv_addMethods _ [] (regInv_empty P) hall

/-- Method `m` is stored in the registry's list for event name `ev`. -/
def memReg (reg : Registry) (ev : String) (m : Member) : Prop :=
  ∃ hs, regLookup reg ev = some hs ∧ m ∈ hs

instance (reg : Registry) (ev : String) (m : Member) :
    Decidable (memReg reg ev m) := by
  unfold memReg; infer_instance

theorem memReg_addHandler_self (reg : Registry) (ev : String) (m : Member) :
    memReg (addHandler reg ev m) ev m := by
  refine ⟨((regLookup reg ev).getD []) ++ [m], ?_, by simp⟩
  rw [regLookup_addHandler, if_pos rfl]

theorem memReg_addHandler_mono {reg : Registry} {k : String} {m' : Member}
    (h : memReg reg k m') (ev : String) (m : Member) :
    memReg (addHandler reg ev m) k m' := by
  obtain ⟨hs, hl, hm⟩ := h
  by_cases hk : k = ev
  · subst hk
    exact ⟨hs ++ [m], by rw [regLookup_addHandler, if_pos rfl, hl]; rfl,
      List.mem_append_left _ hm⟩
  · exact ⟨hs, by rw [regLookup_addHandler, if_neg hk]; exact hl, hm⟩

theorem memReg_addEvents_mono {k : String} {m' : Member} (es : List String) :
    ∀ (reg : Registry) (m : Member), memReg reg k m' →
      memReg (addEvents reg m es) k m' := by
  induction es with
  | nil => intro reg m h; exact h
  | cons ev rest ih =>
    intro reg m h
    exact ih (addHandler reg ev m) m (memReg_addHandler_mono h ev m)

theorem memReg_addEvents_self {ev : String} (es : List String) :
    ∀ (reg : Registry) (m : Member), ev ∈ es →
      memReg (addEvents reg m es) ev m := by
  induction es with
  | nil => intro reg m h; exact absurd h (List.not_mem_nil ev)
  | cons e rest ih =>
    intro reg m h
    rcases List.mem_cons.mp h with rfl | hrest
    · exact memReg_addEvents_mono rest _ m (memReg_addHandler_self reg ev m)
    · exact ih (addHandler reg e m) m hrest

theorem memReg_addMethods_mono {k : String} {m' : Member} (ms : List Member) :
    ∀ (reg : Registry), memReg reg k m' → memReg (addMethods reg ms) k m' := by
  induction ms with
  | nil => intro reg h; exact h
  | cons m rest ih =>
    intro reg h
    exact ih _ (memReg_addEvents_mono _ reg m h)

theorem memReg_addMethods_self {m : Member} (ms : List Member) :
    ∀ (reg : Registry), m ∈ ms → ∀ ev ∈ m.events.getD [],
      memReg (addMethods reg ms) ev m := by
  induction ms with
  | nil => intro reg h; exact absurd h (List.not_mem_nil m)
  | cons m0 rest ih =>
    intro reg h ev hev
    rcases List.mem_cons.mp h with rfl | hrest
    · exact memReg_addMethods_mono rest _
        (memReg_addEvents_self _ reg m hev)
    · exact ih _ hrest ev hev

/-- Every scanned method is stored under each event name it declares. -/
theorem memReg_buildListeners {m : Member} (members : List Member)
    (hm : m ∈ handlerMethods members) :
    ∀ ev ∈ m.events.getD [], memReg (buildListeners members) ev m :=
  fun ev hev => memReg_addMethods_self _ [] hm ev hev

/-! ### Construction lemmas -/

/-- Whatever the kwargs contain, the `_listeners` attribute of the object
`__init__` produced (normally or by raising) is the fully built registry:
the registry scan runs before, and independently of, buffer validation. -/
theorem init_listeners {α : Type} (cls : AppClass)
    (kwargs : List (String × α)) :
    (KycoNApp.init cls kwargs).1.listenersAttr =
      buildListeners (instanceMembers cls) := by
  unfold KycoNApp.init
  rcases kwLookup kwargs "add_to_msg_in_buffer" with _ | fin
  · rfl
  · rcases kwLookup kwargs "add_to_msg_out_buffer" with _ | fout
    · rfl
    · rcases kwLookup kwargs "add_to_app_buffer" with _ | fapp
      · rfl
      · rfl

/-! ### Concrete App descriptions used as inputs -/

/-- A minimal concrete App: overrides the three abstract methods and adds
no members of its own. -/
def minimalApp : AppClass :=
  { userMembers := [], hasSetup := true, hasExecute := true,
    hasShutdown := true }

/-- A public handler method decorated for the single event `Ping`. -/
def pingHandler : Member :=
  { name := "on_ping", callable := true, events := some ["Ping"] }

/-- A decorated handler whose name starts with an underscore. -/
def sneakyHandler : Member :=
  { name := "_sneaky", callable := true, events := some ["Ping"] }

/-- A public handler method decorated for the two events `Ping`, `Pong`. -/
def statsHandler : Member :=
  { name := "on_any_message", callable := true,
    events := some ["Ping", "Pong"] }

/-- Concrete App with one public and one underscore-named decorated
handler. -/
def demoApp : AppClass :=
  { userMembers := [sneakyHandler, pingHandler], hasSetup := true,
    hasExecute := true, hasShutdown := true }

/-- Concrete App with a handler bound to two event names. -/
def demoApp2 : AppClass :=
  { userMembers := [statsHandler, pingHandler], hasSetup := true,
    hasExecute := true, hasShutdown := true }

/-- An App type that does not override `shutdown`. -/
def noShutdownApp : AppClass :=
  { userMembers := [], hasSetup := true, hasExecute := true,
    hasShutdown := false }

/-- Keyword arguments supplying all three buffer sinks. -/
def kwFull : List (String × Unit) :=
  [("add_to_msg_in_buffer", ()), ("add_to_msg_out_buffer", ()),
   ("add_to_app_buffer", ())]

/-- The same three buffer sinks supplied in a different order. -/
def kwFull2 : List (String × Unit) :=
  [("add_to_app_buffer", ()), ("add_to_msg_in_buffer", ()),
   ("add_to_msg_out_buffer", ())]

/-- Keyword arguments omitting `add_to_msg_out_buffer`. -/
def kwMissing : List (String × Unit) :=
  [("add_to_msg_in_buffer", ()), ("add_to_app_buffer", ())]

/-! ### Claim theorems -/

/-- C1 (code-bug evidence): the base class defines `_shutdown_handler`
decorated `@ListenTo('KycoShutdownEvent')`, and the instance of a minimal
concrete App carries that member with its `events` attribute — yet the
scan at utils.py line 114 discards every member whose name starts with
`_`, so the built registry is empty and has no entry for
`KycoShutdownEvent`: a registry lookup of the reserved shutdown event
finds no handler, contradicting the claim (and the docstring of
`shutdown`, utils.py lines 177-179). -/
theorem c1_shutdown_event_not_registered :
    ({ name := "_shutdown_handler", callable := true,
       events := some ["KycoShutdownEvent"] } : Member) ∈
        instanceMembers minimalApp ∧
    buildListeners (instanceMembers minimalApp) = [] ∧
    regLookup (buildListeners (instanceMembers minimalApp))
        "KycoShutdownEvent" = none :=
  ⟨by decide, by decide, by decide⟩

/-- C3: every handler stored in the registry's collection for a key `ev`
declared `ev` in its `events` attribute. -/
theorem c3_registry_key_declared (cls : AppClass) (ev : String)
    (hs : List Member)
    (hlook : regLookup (buildListeners (instanceMembers cls)) ev = some hs) :
    ∀ m ∈ hs, ev ∈ m.events.getD [] :=
  regInv_buildListeners (instanceMembers cls)
    (fun _ _ _ hev => hev) ev hs hlook

theorem c3_registry_key_declared_witness :
    "Ping" ∈ pingHandler.events.getD [] :=
  c3_registry_key_declared demoApp "Ping" [pingHandler] (by decide)
    pingHandler (by decide)

/-- C4: a handler whose binding declares at least two event names is
stored in the registry's collection for every one of those names. -/
theorem c4_multi_event_handler_in_each (cls : AppClass) (m : Member)
    (hm : m ∈ handlerMethods (instanceMembers cls))
    (_hn : 2 ≤ (m.events.getD []).length) :
    ∀ ev ∈ m.events.getD [],
      memReg (buildListeners (instanceMembers cls)) ev m :=
  memReg_buildListeners (instanceMembers cls) hm

theorem c4_multi_event_handler_in_each_witness :
    memReg (buildListeners (instanceMembers demoApp2)) "Pong" statsHandler :=
  c4_multi_event_handler_in_each demoApp2 statsHandler (by decide)
    (by decide) "Pong" (by decide)

/-- C10: every handler stored in the registry is a member whose name does
not start with an underscore — underscore-named members are excluded from
the scan even when callable and decorated. -/
theorem c10_no_private_in_registry (cls : AppClass) (ev : String)
    (hs : List Member)
    (hlook : regLookup (buildListeners (instanceMembers cls)) ev = some hs) :
    ∀ m ∈ hs, m.isPrivate = false := by
  refine @regInv_buildListeners (fun _ m => m.isPrivate = false)
    (instanceMembers cls) ?_ ev hs hlook
  intro m hm _ _
  have h := (List.mem_filter.mp hm).2
  simp only [Bool.and_eq_true, Bool.not_eq_true'] at h
  exact h.1.1

theorem c10_no_private_in_registry_witness :
    pingHandler.isPrivate = false :=
  c10_no_private_in_registry demoApp "Ping" [pingHandler] (by decide)
    pingHandler (by decide)

/-- C2: when any of the three required buffer keys is absent from the
kwargs, `__init__` raises `KycoNAppMissingInitArgument` naming a key that
is indeed absent; when all three are present it raises no error and binds
each supplied value to the corresponding attribute. -/
theorem c2_buffer_validation {α : Type} (cls : AppClass)
    (kwargs : List (String × α)) :
    ((kwLookup kwargs "add_to_msg_in_buffer" = none ∨
      kwLookup kwargs "add_to_msg_out_buffer" = none ∨
      kwLookup kwargs "add_to_app_buffer" = none) →
      ∃ k, (KycoNApp.init cls kwargs).2 =
          some (PyError.kycoNAppMissingInitArgument k) ∧
        kwLookup kwargs k = none) ∧
    (∀ fi fo fa,
      kwLookup kwargs "add_to_msg_in_buffer" = some fi →
      kwLookup kwargs "add_to_msg_out_buffer" = some fo →
      kwLookup kwargs "add_to_app_buffer" = some fa →
      (KycoNApp.init cls kwargs).2 = none ∧
      (KycoNApp.init cls kwargs).1.add_to_msg_in_buffer = some fi ∧
      (KycoNApp.init cls kwargs).1.add_to_msg_out_buffer = some fo ∧
      (KycoNApp.init cls kwargs).1.add_to_app_buffer = some fa) := by
  rcases hin : kwLookup kwargs "add_to_msg_in_buffer" with _ | fin
  · refine ⟨fun _ => ⟨"add_to_msg_in_buffer", ?_, hin⟩, ?_⟩
    · simp [KycoNApp.init, hin]
    · intro fi fo fa h1 _ _
      exact absurd h1 (by simp)
  · rcases hout : kwLookup kwargs "add_to_msg_out_buffer" with _ | fout
    · refine ⟨fun _ => ⟨"add_to_msg_out_buffer", ?_, hout⟩, ?_⟩
      · simp [KycoNApp.init, hin, hout]
      · intro fi fo fa _ h2 _
        exact absurd h2 (by simp)
    · rcases happ : kwLookup kwargs "add_to_app_buffer" with _ | fapp
      · refine ⟨fun _ => ⟨"add_to_app_buffer", ?_, happ⟩, ?_⟩
        · simp [KycoNApp.init, hin, hout, happ]
        · intro fi fo fa _ _ h3
          exact absurd h3 (by simp)
      · refine ⟨fun habs => ?_, fun fi fo fa h1 h2 h3 => ?_⟩
        · rcases habs with h | h | h <;> exact absurd h (by simp)
        · obtain rfl : fin = fi := Option.some.inj h1
          obtain rfl : fout = fo := Option.some.inj h2
          obtain rfl : fapp = fa := Option.some.inj h3
          refine ⟨?_, ?_, ?_, ?_⟩ <;> simp [KycoNApp.init, hin, hout, happ]

theorem c2_buffer_validation_witness :
    (∃ k, (KycoNApp.init minimalApp kwMissing).2 =
        some (PyError.kycoNAppMissingInitArgument k) ∧
      kwLookup kwMissing k = none) ∧
    ((KycoNApp.init minimalApp kwFull).2 = none ∧
     (KycoNApp.init minimalApp kwFull).1.add_to_msg_in_buffer = some () ∧
     (KycoNApp.init minimalApp kwFull).1.add_to_msg_out_buffer = some () ∧
     (KycoNApp.init minimalApp kwFull).1.add_to_app_buffer = some ()) :=
  ⟨(c2_buffer_validation minimalApp kwMissing).1 (by decide),
   (c2_buffer_validation minimalApp kwFull).2 () () ()
     (by decide) (by decide) (by decide)⟩

/-- C5: two instances of the same App class, each constructed with all
three buffer bindings supplied, have registries with identical key lists
and, for every key, identical numbers of bound handlers. -/
theorem c5_same_class_same_registry {α : Type} (cls : AppClass)
    (kw1 kw2 : List (String × α)) (p1 p2 : AppSelf α)
    (h1 : instantiate cls kw1 = Except.ok (p1, none))
    (h2 : instantiate cls kw2 = Except.ok (p2, none)) :
    p1.listenersAttr.map Prod.fst = p2.listenersAttr.map Prod.fst ∧
    ∀ ev, (regLookup p1.listenersAttr ev).map List.length =
      (regLookup p2.listenersAttr ev).map List.length := by
  unfold instantiate at h1 h2
  by_cases hc : (cls.hasSetup && cls.hasExecute && cls.hasShutdown) = true
  · rw [if_pos hc] at h1 h2
    have g1 : (KycoNApp.init cls kw1).1 = p1 :=
      congrArg Prod.fst (Except.ok.inj h1)
    have g2 : (KycoNApp.init cls kw2).1 = p2 :=
      congrArg Prod.fst (Except.ok.inj h2)
    have l1 : p1.listenersAttr = buildListeners (instanceMembers cls) := by
      rw [← g1]; exact init_listeners cls kw1
    have l2 : p2.listenersAttr = buildListeners (instanceMembers cls) := by
      rw [← g2]; exact init_listeners cls kw2
    rw [l1, l2]
    exact ⟨rfl, fun _ => rfl⟩
  · rw [if_neg hc] at h1
    exact absurd h1 (by simp)

theorem c5_same_class_same_registry_witness :
    ((KycoNApp.init demoApp kwFull).1).listenersAttr.map Prod.fst =
      ((KycoNApp.init demoApp kwFull2).1).listenersAttr.map Prod.fst :=
  (c5_same_class_same_registry demoApp kwFull kwFull2
    (KycoNApp.init demoApp kwFull).1 (KycoNApp.init demoApp kwFull2).1
    rfl rfl).1

/-- C6: the decorated wrapper produced from event names `e, es...`
exposes exactly the declared sequence `e :: es`, in order, through its
`events` attribute; the sequence is never empty, and its value is the
same whatever the underlying handler is (reading it does not involve
running the handler). -/
theorem c6_listen_to_events (α : Type) (e : String) (es : List String)
    (h h' : PyFun α) :
    ((ListenTo.init e es).call h).events = e :: es ∧
    ((ListenTo.init e es).call h).events ≠ [] ∧
    ((ListenTo.init e es).call h).events =
      ((ListenTo.init e es).call h').events :=
  ⟨rfl, List.cons_ne_nil e es, rfl⟩

/-- C7: invoking the wrapper returns unit to the caller — never a value,
never an exception — for every handler behaviour and argument list; the
handler (with any exception it may raise) runs only inside the spawned
thread, which receives the caller's arguments unchanged. -/
theorem c7_wrapper_isolates (α : Type) (w : WrappedHandler α)
    (args : List α) :
    (w.invoke args).1 = PyResult.ok () ∧
    (w.invoke args).2.run = w.handler args ∧
    ∀ w' : WrappedHandler α, (w.invoke args).1 = (w'.invoke args).1 :=
  ⟨rfl, rfl, fun _ => rfl⟩

/-- C8: whenever `__init__` raises `KycoNAppMissingInitArgument`, the
`_listeners` attribute of the partially constructed object already equals
the fully built registry: the scan and indexing completed before any
buffer validation ran. -/
theorem c8_registry_before_validation {α : Type} (cls : AppClass)
    (kwargs : List (String × α)) (err : PyError)
    (_h : (KycoNApp.init cls kwargs).2 = some err) :
    (KycoNApp.init cls kwargs).1.listenersAttr =
      buildListeners (instanceMembers cls) :=
  init_listeners cls kwargs

theorem c8_registry_before_validation_witness :
    (KycoNApp.init minimalApp ([] : List (String × Unit))).1.listenersAttr =
      buildListeners (instanceMembers minimalApp) :=
  c8_registry_before_validation minimalApp ([] : List (String × Unit))
    (PyError.kycoNAppMissingInitArgument "add_to_msg_in_buffer") (by decide)

/-- C9: a subclass omitting any of `setup`, `execute`, `shutdown` cannot
be instantiated: `ABCMeta` raises before `__init__` runs, so the result
is an error and no object is produced. -/
theorem c9_abstract_not_instantiable {α : Type} (cls : AppClass)
    (kwargs : List (String × α))
    (h : cls.hasSetup = false ∨ cls.hasExecute = false ∨
      cls.hasShutdown = false) :
    instantiate cls kwargs = Except.error PyError.typeErrorAbstract := by
  unfold instantiate
  rcases h with h | h | h <;> simp [h]

theorem c9_abstract_not_instantiable_witness :
    instantiate noShutdownApp kwFull = Except.error PyError.typeErrorAbstract :=
  c9_abstract_not_instantiable noShutdownApp kwFull (by decide)

end Kyco
